import Mathlib

/-!
Verification of the folly network logging components
(`NetworkLogWriter`, `JSONLogFormatter`, `NetworkHandlerFactory`)
against their natural-language specification.

The C++ classes are shallowly embedded: the mutable, lock-protected
`ConnectionState` record becomes a Lean structure, each member function
becomes a pure function from the old state to the new state together with
the externally visible effects it triggers (buffers written to the
transport socket, connect attempts issued, errors reported, reconnect
timer arming).  All byte strings are modelled as `List Nat` (one entry per
byte) with `size` = list length, matching `std::string::size`.
-/

namespace FollyNetLog

/-- A log message payload: the bytes of the C++ `std::string` buffer.
The writer treats the content as opaque; only its size (= length) and
identity matter. -/
abbrev Msg := List Nat

/-- `NetworkLogWriter::Protocol` from NetworkLogWriter.h. -/
inductive Protocol where
  | tcp
  | udp
deriving DecidableEq

/-- `NetworkLogWriter::ConnectionState` from NetworkLogWriter.h.
`socket = none` models a null `std::shared_ptr<AsyncSocket>`;
`socket = some g` models a present socket whose `good()` returns `g`. -/
structure ConnectionState where
  socket : Option Bool
  pendingMessages : List Msg
  pendingBytes : Nat
  connecting : Bool
  closed : Bool
deriving DecidableEq

/-- The state of the writer's `ReconnectTimeout` (an `AsyncTimeout`):
whether a timeout is currently scheduled, plus a ghost counter of how many
times `scheduleTimeout` has actually armed the timer (one future firing
per arming of a one-shot timeout). -/
structure ReconnectTimer where
  scheduled : Bool
  armCount : Nat
deriving DecidableEq

/-- The C++ test `state->socket && state->socket->good()`. -/
def socketGood (st : ConnectionState) : Bool :=
  match st.socket with
  | some g => g
  | none => false

/-- `LogWriter::NEVER_DISCARD` flag bit (value 0x01 in folly's
logging/LogWriter.h, outside this repository's sources). -/
def NEVER_DISCARD : Nat := 1

/-- `NetworkLogWriter::writeMessage(std::string&&, uint32_t)`.
Returns the updated connection state, whether the buffer was enqueued
(false = discarded), and whether a `sendPendingMessages` run was posted to
the event base (done exactly when a good socket is present). -/
def writeMessage (maxBufferSize : Nat) (st : ConnectionState) (buffer : Msg)
    (flags : Nat) : ConnectionState × Bool × Bool :=
  -- discard check: pendingBytes + buffer.size() > maxBufferSize_
  --                && !(flags & LogWriter::NEVER_DISCARD)
  if st.pendingBytes + buffer.length > maxBufferSize ∧
      Nat.land flags NEVER_DISCARD = 0 then
    (st, false, false)
  else
    let st1 : ConnectionState :=
      { st with
        pendingMessages := st.pendingMessages ++ [buffer],
        pendingBytes := st.pendingBytes + buffer.length }
    (st1, true, socketGood st1)

/-- `NetworkLogWriter::sendPendingMessages()`.  The connection state is not
mutated; the returned value is the buffer handed to `socket->write` (the
head of the pending queue), or `none` when the early-return guard fires. -/
def sendPendingMessages (st : ConnectionState) : Option Msg :=
  if st.pendingMessages.isEmpty ∨ socketGood st = false then
    none
  else
    st.pendingMessages.head?

/-- `NetworkLogWriter::onWriteSuccess()`: pop the head of the pending
queue, then, if messages remain and the socket is still good, run
`sendPendingMessages` (whose emitted buffer is returned). -/
def onWriteSuccess (st : ConnectionState) : ConnectionState × Option Msg :=
  let st1 : ConnectionState :=
    match st.pendingMessages with
    | [] => st
    | m :: rest =>
        { st with
          pendingMessages := rest,
          pendingBytes := st.pendingBytes - m.length }
  if st1.pendingMessages.isEmpty = false ∧ socketGood st1 = true then
    (st1, sendPendingMessages st1)
  else
    (st1, none)

/-- `NetworkLogWriter::scheduleReconnect()`: arm the one-shot reconnect
timeout only when it is not already scheduled. -/
def scheduleReconnect (t : ReconnectTimer) : ReconnectTimer :=
  if t.scheduled then t
  else { scheduled := true, armCount := t.armCount + 1 }

/-- `NetworkLogWriter::onWriteError(const AsyncSocketException&)`:
if the socket is still good, retry via `sendPendingMessages` (the returned
`Option Msg` is the buffer it writes); otherwise drop the socket handle
and schedule a reconnect. -/
def onWriteError (st : ConnectionState) (t : ReconnectTimer) :
    ConnectionState × ReconnectTimer × Option Msg :=
  if socketGood st = true then
    (st, t, sendPendingMessages st)
  else
    ({ st with socket := none }, scheduleReconnect t, none)

/-- Result of a `NetworkLogWriter::connect()` call: the new connection
state and timer, whether a transport `socket->connect` was issued, and
whether an error was reported (the `LOG(ERROR)` in the catch block). -/
structure ConnectResult where
  state : ConnectionState
  timer : ReconnectTimer
  socketConnectIssued : Bool
  errorReported : Bool
deriving DecidableEq

/-- `NetworkLogWriter::connect()`.  The guard mirrors
`state->connecting || state->socket && state->socket->good()`.  For TCP an
`AsyncSocket` is created and `socket->connect` issued (a connecting
`AsyncSocket` reports `good()`); for UDP the body throws
`std::runtime_error` before any socket exists, and the catch block reports
the error, clears `connecting`, and calls `scheduleReconnect`. -/
def connect (protocol : Protocol) (st : ConnectionState) (t : ReconnectTimer) :
    ConnectResult :=
  if st.connecting = true ∨ socketGood st = true then
    ⟨st, t, false, false⟩
  else
    let st1 : ConnectionState := { st with connecting := true }
    match protocol with
    | Protocol.tcp =>
        ⟨{ st1 with socket := some true }, t, true, false⟩
    | Protocol.udp =>
        ⟨{ st1 with connecting := false }, scheduleReconnect t, false, true⟩

/-- `NetworkLogWriter::cleanup()`: cancel the reconnect timeout (and stop
the event base; thread join is outside the state model), then mark the
connection state closed and release the socket.  The pending queue is left
untouched. -/
def cleanup (st : ConnectionState) (t : ReconnectTimer) :
    ConnectionState × ReconnectTimer :=
  ({ st with closed := true, socket := none },
   { t with scheduled := false })

/-- The invariant claimed of `pendingBytes`: it equals the sum of the
sizes of the buffers currently in the pending queue. -/
def bytesOk (st : ConnectionState) : Prop :=
  st.pendingBytes = (st.pendingMessages.map List.length).sum

/-- A fresh connection state, as value-initialized in NetworkLogWriter.h. -/
def emptyState : ConnectionState :=
  { socket := none, pendingMessages := [], pendingBytes := 0,
    connecting := false, closed := false }

/-- A fresh, unscheduled reconnect timer. -/
def freshTimer : ReconnectTimer := { scheduled := false, armCount := 0 }

/-- A concrete connected state with two queued messages, used by
witnesses. -/
def demoState : ConnectionState :=
  { socket := some true, pendingMessages := [[1, 2], [3]], pendingBytes := 3,
    connecting := false, closed := false }

/-- A concrete timer with a scheduled timeout, used by witnesses. -/
def armedTimer : ReconnectTimer := { scheduled := true, armCount := 1 }

/-- The connection state right after `cleanup` on a fresh writer:
`closed` is set, the socket released, no connect in flight. -/
def closedState : ConnectionState :=
  { socket := none, pendingMessages := [], pendingBytes := 0,
    connecting := false, closed := true }

/-- State of one run of the writer against the transport: the connection
state, the transcript of buffers handed to `socket->write` so far, the
ghost list of buffers `writeMessage` actually enqueued (in call order),
and the number of transport writes issued whose completion callback has
not yet run. -/
structure RunState where
  conn : ConnectionState
  sent : List Msg
  accepted : List Msg
  outstanding : Nat
deriving DecidableEq

/-- The operations of a run relevant to transmission ordering: a
`writeMessage` call, a posted `sendPendingMessages` executing on the event
base, and the transport delivering a write-success callback
(`onWriteSuccess`). -/
inductive Event where
  | write (buf : Msg) (flags : Nat)
  | send
  | success
deriving DecidableEq

/-- One step of a run: apply the corresponding writer operation and record
its transport writes in the transcript. -/
def stepEvent (max : Nat) (rs : RunState) (e : Event) : RunState :=
  match e with
  | Event.write buf flags =>
      let r := writeMessage max rs.conn buf flags
      { rs with
        conn := r.1,
        accepted := if r.2.1 then rs.accepted ++ [buf] else rs.accepted }
  | Event.send =>
      match sendPendingMessages rs.conn with
      | some m =>
          { rs with sent := rs.sent ++ [m],
                    outstanding := rs.outstanding + 1 }
      | none => rs
  | Event.success =>
      let r := onWriteSuccess rs.conn
      { rs with
        conn := r.1,
        sent := rs.sent ++ r.2.toList,
        outstanding := rs.outstanding - 1
            + (if r.2.isSome then 1 else 0) }

/-- Run a list of events from a given run state. -/
def runEvents (max : Nat) (rs : RunState) : List Event → RunState
  | [] => rs
  | e :: rest => runEvents max (stepEvent max rs e) rest

/-- The single-in-flight discipline stated by the claim: a posted send
only executes when no transport write is outstanding (the previous write's
`onWriteSuccess` has already removed the head), and a success callback
answers exactly the one outstanding write. -/
def disciplined (max : Nat) (rs : RunState) : List Event → Bool
  | [] => true
  | e :: rest =>
      (match e with
       | Event.write _ _ => true
       | Event.send => rs.outstanding == 0
       | Event.success => rs.outstanding == 1)
      && disciplined max (stepEvent max rs e) rest

/-- A run of a freshly connected writer: good socket, empty queue, nothing
sent, accepted, or outstanding. -/
def initRun : RunState :=
  { conn := { socket := some true, pendingMessages := [], pendingBytes := 0,
              connecting := false, closed := false },
    sent := [], accepted := [], outstanding := 0 }

/-- Invariant tying the transcript to the queue: at most one write is in
flight, the in-flight buffers are the first `outstanding` entries of the
queue, and transcript plus not-yet-written queue entries is exactly the
accepted sequence. -/
def runInv (rs : RunState) : Prop :=
  rs.outstanding ≤ 1
  ∧ rs.outstanding ≤ rs.conn.pendingMessages.length
  ∧ rs.sent ++ rs.conn.pendingMessages.drop rs.outstanding = rs.accepted

/-- The queue-popping first half of `onWriteSuccess`: remove the head
message (if any) and deduct its size from `pendingBytes`. -/
def popHead (st : ConnectionState) : ConnectionState :=
  match st.pendingMessages with
  | [] => st
  | m :: rest =>
      { st with pendingMessages := rest,
                pendingBytes := st.pendingBytes - m.length }

/-- A concrete disciplined run used by witnesses: enqueue `[1]`, send it,
enqueue `[2]` meanwhile, then two write-success callbacks drain the
queue. -/
def demoEvts : List Event :=
  [Event.write [1] 0, Event.send, Event.write [2] 0,
   Event.success, Event.success]

/-- A schedule the event base can actually produce: each of the two
`writeMessage` calls posts a `sendPendingMessages`, and both posted sends
run before the first write's success callback is delivered (nothing in the
code stops a posted send from running while a write is outstanding). -/
def raceEvts : List Event :=
  [Event.write [1] 0, Event.send, Event.write [2] 0, Event.send,
   Event.success, Event.success]

/-- Error raised by the `NetworkHandlerFactory` parsing helpers:
`std::invalid_argument` from the explicit checks, or the conversion error
`folly::to<uint64_t>` raises on an out-of-range digit string. -/
inductive ParseError where
  | invalidArgument
  | conversionError
deriving DecidableEq

/-- `folly::to<uint64_t>` on a non-empty all-digit string: the decimal
value of the digits. -/
def digitsToNat (cs : List Char) : Nat :=
  cs.foldl (fun acc c => acc * 10 + (c.toNat - 48)) 0

/-- Two's-complement wrap of an integer into the signed 64-bit range
`[-2^63, 2^63)`: how the `int64_t` rep of the `std::chrono` duration
types behaves on the mainstream ABIs (libstdc++/libc++ use `int64_t`
reps for milliseconds, seconds, minutes and hours). -/
def wrap64 (i : Int) : Int :=
  (i + 2 ^ 63) % 2 ^ 64 - 2 ^ 63

/-- `NetworkHandlerFactory::parseReconnectInterval`: scan the maximal
leading digit run (`std::isdigit` loop), reject when it is empty or covers
the whole string, convert the digits with `to<uint64_t>` (which throws
beyond `2^64 - 1`), then build the unit's chrono duration from the
`uint64_t` value — wrapping it into the duration's `int64_t` rep — and
convert to the declared return type `std::chrono::milliseconds`, an
`int64_t` multiplication by 1000, 60000 or 3600000 that again wraps.
The result is the signed 64-bit milliseconds rep. -/
def parseReconnectInterval (s : List Char) : Except ParseError Int :=
  let digits := s.takeWhile Char.isDigit
  let pos := digits.length
  if pos = 0 ∨ pos = s.length then
    Except.error ParseError.invalidArgument
  else
    let unitStr := s.drop pos
    let number := digitsToNat digits
    if number < 2 ^ 64 then
      if unitStr = ['m', 's'] then Except.ok (wrap64 number)
      else if unitStr = ['s'] then Except.ok (wrap64 (wrap64 number * 1000))
      else if unitStr = ['m'] then Except.ok (wrap64 (wrap64 number * 60000))
      else if unitStr = ['h'] then
        Except.ok (wrap64 (wrap64 number * 3600000))
      else Except.error ParseError.invalidArgument
    else Except.error ParseError.conversionError

/-- `NetworkHandlerFactory::parseMaxBufferSize`: same digit scan and
`to<uint64_t>` conversion, unit suffixes B/KB/MB/GB with multipliers 1,
1024, 1024^2, 1024^3; the `size_t` product `number * multiplier` wraps
modulo `2^64`. -/
def parseMaxBufferSize (s : List Char) : Except ParseError Nat :=
  let digits := s.takeWhile Char.isDigit
  let pos := digits.length
  if pos = 0 ∨ pos = s.length then
    Except.error ParseError.invalidArgument
  else
    let unitStr := s.drop pos
    let number := digitsToNat digits
    if number < 2 ^ 64 then
      if unitStr = ['B'] then Except.ok (number * 1 % 2 ^ 64)
      else if unitStr = ['K', 'B'] then Except.ok (number * 1024 % 2 ^ 64)
      else if unitStr = ['M', 'B'] then
        Except.ok (number * (1024 * 1024) % 2 ^ 64)
      else if unitStr = ['G', 'B'] then
        Except.ok (number * (1024 * 1024 * 1024) % 2 ^ 64)
      else Except.error ParseError.invalidArgument
    else Except.error ParseError.conversionError

/-- Spec-side table of recognized reconnect-interval units with their
milliseconds-per-unit factor. -/
def intervalUnitMult (u : List Char) : Option Int :=
  if u = ['m', 's'] then some 1
  else if u = ['s'] then some 1000
  else if u = ['m'] then some 60000
  else if u = ['h'] then some 3600000
  else none

/-- Spec-side table of recognized size units with their bytes-per-unit
factor. -/
def sizeUnitMult (u : List Char) : Option Nat :=
  if u = ['B'] then some 1
  else if u = ['K', 'B'] then some 1024
  else if u = ['M', 'B'] then some (1024 * 1024)
  else if u = ['G', 'B'] then some (1024 * 1024 * 1024)
  else none

/-- Lowercase hex digit byte for a nibble, as printed by the
4-digit-hex format directive in `escapeJsonString`. -/
def hexDigit (n : Nat) : Nat :=
  if n < 10 then 48 + n else 87 + n

/-- One iteration of the `JSONLogFormatter::escapeJsonString` loop: the
bytes appended for input byte `b` (the switch cases for quote 0x22,
backslash 0x5C, backspace, form feed, newline, carriage return, tab, the
4-digit-hex default for other control bytes and 0x7F, and the
copy-through default). -/
def escapeByte (b : Nat) : List Nat :=
  if b = 0x22 then [0x5C, 0x22]
  else if b = 0x5C then [0x5C, 0x5C]
  else if b = 0x08 then [0x5C, 0x62]
  else if b = 0x0C then [0x5C, 0x66]
  else if b = 0x0A then [0x5C, 0x6E]
  else if b = 0x0D then [0x5C, 0x72]
  else if b = 0x09 then [0x5C, 0x74]
  else if b < 0x20 ∨ b = 0x7F then
    [0x5C, 0x75, 0x30, 0x30, hexDigit (b / 16), hexDigit (b % 16)]
  else [b]

/-- `JSONLogFormatter::escapeJsonString`: the loop over the input bytes,
appending `escapeByte` of each. -/
def escapeJsonString : List Nat → List Nat
  | [] => []
  | b :: rest => escapeByte b ++ escapeJsonString rest

/-- The bytes `escapeJsonString` must never emit raw: quote, backslash,
control bytes below 0x20, and 0x7F. -/
def isSpecialByte (b : Nat) : Bool :=
  decide (b = 0x22 ∨ b = 0x5C ∨ b < 0x20 ∨ b = 0x7F)

/-- A lowercase hex digit byte. -/
def isHexLower (b : Nat) : Bool :=
  decide ((48 ≤ b ∧ b ≤ 57) ∨ (97 ≤ b ∧ b ≤ 102))

/-- Bytes allowed directly after a backslash in escaped output. -/
def escapeLetter (b : Nat) : Bool :=
  decide (b = 0x22 ∨ b = 0x5C ∨ b = 0x62 ∨ b = 0x66 ∨ b = 0x6E
    ∨ b = 0x72 ∨ b = 0x74)

/-- Spec-side checker automaton for escaped output.  State 0: normal —
a backslash starts an escape, any other byte must be non-special.
State 1: just after a backslash — a one-letter escape returns to normal,
a `u` starts a four-hex-digit escape.  States 2-5: the next byte must be
a hex digit, returning to normal after the fourth.  A list is accepted
exactly when it is a sequence of non-special bytes and complete JSON
escape sequences. -/
def jsonEscapedState : Nat → List Nat → Bool
  | st, [] => decide (st = 0)
  | st, b :: rest =>
      if st = 0 then
        if b = 0x5C then jsonEscapedState 1 rest
        else !isSpecialByte b && jsonEscapedState 0 rest
      else if st = 1 then
        if escapeLetter b then jsonEscapedState 0 rest
        else if b = 0x75 then jsonEscapedState 2 rest
        else false
      else if st ≤ 5 then
        isHexLower b && jsonEscapedState (if st = 5 then 0 else st + 1) rest
      else false

/-- A byte list parses as a sequence of non-special bytes and complete
JSON escape sequences, so it contains no unescaped quote, backslash, or
control byte. -/
def jsonEscapedOk (l : List Nat) : Bool :=
  jsonEscapedState 0 l

/-- Decimal digit bytes of a number, as printed by the format
directives for numbers in `formatMessage` and `formatTimestamp`. -/
def natDigits (n : Nat) : List Nat :=
  if h : n < 10 then [48 + n]
  else natDigits (n / 10) ++ [48 + n % 10]
decreasing_by
  exact Nat.div_lt_self (by omega) (by omega)

/-- Two-digit zero-padded decimal, as produced by the strftime
two-digit fields. -/
def pad2 (n : Nat) : List Nat :=
  if n < 10 then [48, 48 + n] else natDigits n

/-- Six-digit zero-padded decimal, as produced by the zero-padded
six-wide format directive for microseconds. -/
def pad6 (n : Nat) : List Nat :=
  List.replicate (6 - (natDigits n).length) 48 ++ natDigits n

/-- The fields of the broken-down local time (`struct tm` plus
microseconds) as they are printed: year, month, day, hour, minute,
second, microsecond. -/
structure TmTime where
  year : Nat
  mon : Nat
  day : Nat
  hour : Nat
  minute : Nat
  sec : Nat
  usec : Nat

/-- `JSONLogFormatter::formatTimestamp`: strftime with format
`%Y-%m-%dT%H:%M:%S`, then a dot and the microseconds padded to six
digits.  The `struct tm` returned by `localtime_r` is abstracted by the
printed field values. -/
def formatTimestamp (t : TmTime) : List Nat :=
  natDigits t.year ++ [45] ++ pad2 t.mon ++ [45] ++ pad2 t.day
    ++ [84] ++ pad2 t.hour ++ [58] ++ pad2 t.minute ++ [58] ++ pad2 t.sec
    ++ [46] ++ pad6 t.usec

/-- `folly::LogLevel::INFO` (values from folly's logging/LogLevel.h,
outside this repository's sources). -/
def INFO : Nat := 2000

/-- `folly::LogLevel::WARN`. -/
def WARN : Nat := 3000

/-- `folly::LogLevel::ERR`. -/
def ERR : Nat := 4000

/-- `folly::LogLevel::CRITICAL`. -/
def CRITICAL : Nat := 5000

/-- `folly::LogLevel::DFATAL`. -/
def DFATAL : Nat := 0x7FFFFFFE

def verboseBytes : List Nat := [86, 69, 82, 66, 79, 83, 69]

def infoBytes : List Nat := [73, 78, 70, 79]

def warnBytes : List Nat := [87, 65, 82, 78]

def errorBytes : List Nat := [69, 82, 82, 79, 82]

def criticalBytes : List Nat := [67, 82, 73, 84, 73, 67, 65, 76]

def fatalBytes : List Nat := [70, 65, 84, 65, 76]

/-- The level-name selection at the top of
`JSONLogFormatter::formatMessage`. -/
def levelName (level : Nat) : List Nat :=
  if level < INFO then verboseBytes
  else if level < WARN then infoBytes
  else if level < ERR then warnBytes
  else if level < CRITICAL then errorBytes
  else if level < DFATAL then criticalBytes
  else fatalBytes

def jsonFrag1 : List Nat :=
  [123, 34, 116, 105, 109, 101, 115, 116, 97, 109, 112, 34, 58, 34]

def jsonFrag2 : List Nat := [34, 44, 34, 108, 101, 118, 101, 108, 34, 58, 34]

def jsonFrag3 : List Nat :=
  [34, 44, 34, 99, 97, 116, 101, 103, 111, 114, 121, 34, 58, 34]

def jsonFrag4 : List Nat := [34, 44, 34, 102, 105, 108, 101, 34, 58, 34]

def jsonFrag5 : List Nat := [34, 44, 34, 108, 105, 110, 101, 34, 58]

def jsonFrag6 : List Nat :=
  [44, 34, 102, 117, 110, 99, 116, 105, 111, 110, 34, 58, 34]

def jsonFrag7 : List Nat :=
  [34, 44, 34, 116, 104, 114, 101, 97, 100, 95, 105, 100, 34, 58]

def jsonFrag8 : List Nat :=
  [44, 34, 109, 101, 115, 115, 97, 103, 101, 34, 58, 34]

def jsonFrag9 : List Nat := [34, 125, 10]

def prettyFrag1 : List Nat :=
  [123, 10, 32, 32, 34, 116, 105, 109, 101, 115, 116, 97, 109, 112, 34, 58,
   32, 34]

def prettyFrag2 : List Nat :=
  [34, 44, 10, 32, 32, 34, 108, 101, 118, 101, 108, 34, 58, 32, 34]

def prettyFrag3 : List Nat :=
  [34, 44, 10, 32, 32, 34, 99, 97, 116, 101, 103, 111, 114, 121, 34, 58,
   32, 34]

def prettyFrag4 : List Nat :=
  [34, 44, 10, 32, 32, 34, 102, 105, 108, 101, 34, 58, 32, 34]

def prettyFrag5 : List Nat :=
  [34, 44, 10, 32, 32, 34, 108, 105, 110, 101, 34, 58, 32]

def prettyFrag6 : List Nat :=
  [44, 10, 32, 32, 34, 102, 117, 110, 99, 116, 105, 111, 110, 34, 58, 32,
   34]

def prettyFrag7 : List Nat :=
  [34, 44, 10, 32, 32, 34, 116, 104, 114, 101, 97, 100, 95, 105, 100, 34,
   58, 32]

def prettyFrag8 : List Nat :=
  [44, 10, 32, 32, 34, 109, 101, 115, 115, 97, 103, 101, 34, 58, 32, 34]

def prettyFrag9 : List Nat := [34, 10, 125, 10]

/-- `JSONLogFormatter::formatMessage`: the format templates (pretty and
compact) with the timestamp, level name, escaped string fields, and
decimal line/thread-id numbers spliced in, in the argument order of the
source. -/
def formatMessage (prettyPrint : Bool) (t : TmTime) (level : Nat)
    (category file func message : List Nat) (line threadId : Nat) :
    List Nat :=
  if prettyPrint then
    prettyFrag1 ++ formatTimestamp t ++ prettyFrag2 ++ levelName level
      ++ prettyFrag3 ++ escapeJsonString category
      ++ prettyFrag4 ++ escapeJsonString file
      ++ prettyFrag5 ++ natDigits line
      ++ prettyFrag6 ++ escapeJsonString func
      ++ prettyFrag7 ++ natDigits threadId
      ++ prettyFrag8 ++ escapeJsonString message ++ prettyFrag9
  else
    jsonFrag1 ++ formatTimestamp t ++ jsonFrag2 ++ levelName level
      ++ jsonFrag3 ++ escapeJsonString category
      ++ jsonFrag4 ++ escapeJsonString file
      ++ jsonFrag5 ++ natDigits line
      ++ jsonFrag6 ++ escapeJsonString func
      ++ jsonFrag7 ++ natDigits threadId
      ++ jsonFrag8 ++ escapeJsonString message ++ jsonFrag9

/-- A concrete timestamp used by witnesses. -/
def demoTm : TmTime :=
  { year := 2026, mon := 10, day := 12, hour := 3, minute := 4, sec := 5,
    usec := 67 }

end FollyNetLog

namespace FollyNetLog

/-- C2: an over-capacity buffer without `NEVER_DISCARD` is dropped with the
whole connection state (in particular `pendingMessages` and `pendingBytes`)
unchanged, and a later buffer that fits is still appended to the queue. -/
theorem writeMessage_discard_policy (max : Nat) (st : ConnectionState)
    (buf : Msg) (flags : Nat)
    (hover : st.pendingBytes + buf.length > max)
    (hflag : Nat.land flags NEVER_DISCARD = 0) :
    (writeMessage max st buf flags).1 = st
    ∧ (writeMessage max st buf flags).2.1 = false
    ∧ ∀ buf2 : Msg, ∀ flags2 : Nat,
        st.pendingBytes + buf2.length ≤ max →
        (writeMessage max st buf2 flags2).1.pendingMessages
            = st.pendingMessages ++ [buf2]
        ∧ (writeMessage max st buf2 flags2).1.pendingBytes
            = st.pendingBytes + buf2.length := by
  refine ⟨?_, ?_, ?_⟩
  · simp [writeMessage, if_pos (⟨hover, hflag⟩ :
      st.pendingBytes + buf.length > max ∧ Nat.land flags NEVER_DISCARD = 0)]
  · simp [writeMessage, if_pos (⟨hover, hflag⟩ :
      st.pendingBytes + buf.length > max ∧ Nat.land flags NEVER_DISCARD = 0)]
  · intro buf2 flags2 hfit
    have hcond : ¬ (st.pendingBytes + buf2.length > max ∧
        Nat.land flags2 NEVER_DISCARD = 0) := by
      intro hc
      omega
    simp [writeMessage, if_neg hcond]

/-- C2 witness: a 5-byte buffer over a 4-byte budget is dropped, after
which a 3-byte buffer is still accepted. -/
theorem writeMessage_discard_policy_witness :
    (writeMessage 4 emptyState [0, 1, 2, 3, 4] 0).1 = emptyState
    ∧ (writeMessage 4 emptyState [0, 1, 2, 3, 4] 0).2.1 = false
    ∧ ∀ buf2 : Msg, ∀ flags2 : Nat,
        emptyState.pendingBytes + buf2.length ≤ 4 →
        (writeMessage 4 emptyState buf2 flags2).1.pendingMessages
            = emptyState.pendingMessages ++ [buf2]
        ∧ (writeMessage 4 emptyState buf2 flags2).1.pendingBytes
            = emptyState.pendingBytes + buf2.length :=
  writeMessage_discard_policy 4 emptyState [0, 1, 2, 3, 4] 0
    (by decide) (by decide)

/-- C3: every state mutation (`writeMessage` enqueue or drop,
`onWriteSuccess` pop, `cleanup`) preserves the invariant that
`pendingBytes` equals the sum of the sizes of the queued buffers. -/
theorem pendingBytes_invariant (max : Nat) (st : ConnectionState)
    (buf : Msg) (flags : Nat) (t : ReconnectTimer) (h : bytesOk st) :
    bytesOk (writeMessage max st buf flags).1
    ∧ bytesOk (onWriteSuccess st).1
    ∧ bytesOk (cleanup st t).1 := by
  have hpop : (onWriteSuccess st).1 =
      match st.pendingMessages with
      | [] => st
      | m :: rest =>
          { st with pendingMessages := rest,
                    pendingBytes := st.pendingBytes - m.length } := by
    simp only [onWriteSuccess]
    split <;> rfl
  refine ⟨?_, ?_, ?_⟩
  · unfold writeMessage
    split
    · exact h
    · simp only [bytesOk] at h ⊢
      simp [h]
  · rw [hpop]
    rcases hq : st.pendingMessages with _ | ⟨m, rest⟩
    · simpa [hq] using h
    · simp only [bytesOk, hq, List.map_cons, List.sum_cons] at h ⊢
      omega
  · simpa [cleanup, bytesOk] using h

/-- C3 witness: the invariant survives an enqueue, a pop, and a cleanup on
a concrete two-message state. -/
theorem pendingBytes_invariant_witness :
    bytesOk (writeMessage 10 demoState [7, 7] 0).1
    ∧ bytesOk (onWriteSuccess demoState).1
    ∧ bytesOk (cleanup demoState freshTimer).1 :=
  pendingBytes_invariant 10 demoState [7, 7] 0 freshTimer rfl

/-- C5 counterexample: with `maxBufferSize = 0` the 1-byte message `[7]` is
dropped when unflagged but enqueued when `NEVER_DISCARD` is set, so the
enqueue-or-drop outcome is not identical with and without the flag. -/
theorem writeMessage_never_discard_differs :
    (writeMessage 0 emptyState [7] 0).1.pendingMessages = []
    ∧ (writeMessage 0 emptyState [7] 0).2.1 = false
    ∧ (writeMessage 0 emptyState [7] NEVER_DISCARD).1.pendingMessages = [[7]]
    ∧ (writeMessage 0 emptyState [7] NEVER_DISCARD).2.1 = true := by
  decide

/-- C5 amended: the discard check does distinguish `NEVER_DISCARD`: an
over-capacity message is dropped without the flag but enqueued with it;
only when the message fits is the outcome identical for all flags. -/
theorem writeMessage_never_discard_amended (max : Nat)
    (st : ConnectionState) (buf : Msg) :
    (st.pendingBytes + buf.length > max →
      (writeMessage max st buf 0).1 = st
      ∧ (writeMessage max st buf 0).2.1 = false
      ∧ (writeMessage max st buf NEVER_DISCARD).1.pendingMessages
          = st.pendingMessages ++ [buf]
      ∧ (writeMessage max st buf NEVER_DISCARD).2.1 = true)
    ∧ (st.pendingBytes + buf.length ≤ max →
      ∀ flags : Nat, writeMessage max st buf flags = writeMessage max st buf 0) := by
  constructor
  · intro hover
    have h0 : Nat.land 0 NEVER_DISCARD = 0 := by decide
    have h1 : ¬ Nat.land NEVER_DISCARD NEVER_DISCARD = 0 := by decide
    refine ⟨?_, ?_, ?_, ?_⟩ <;>
      simp [writeMessage, hover, h0, h1]
  · intro hfit flags
    have hc : ∀ f : Nat, ¬ (st.pendingBytes + buf.length > max ∧
        Nat.land f NEVER_DISCARD = 0) := by
      intro f hcontra
      omega
    simp [writeMessage, if_neg (hc flags), if_neg (hc 0)]

/-- C5 amended witness: at capacity 0 the flagged 1-byte message is
enqueued and the unflagged one dropped; at capacity 5 both behave alike. -/
theorem writeMessage_never_discard_amended_witness :
    ((writeMessage 0 emptyState [7] 0).1 = emptyState
      ∧ (writeMessage 0 emptyState [7] 0).2.1 = false
      ∧ (writeMessage 0 emptyState [7] NEVER_DISCARD).1.pendingMessages
          = emptyState.pendingMessages ++ [[7]]
      ∧ (writeMessage 0 emptyState [7] NEVER_DISCARD).2.1 = true) :=
  (writeMessage_never_discard_amended 0 emptyState [7]).1 (by decide)

/-- C6: arming the reconnect timer is idempotent — a `scheduleReconnect`
while a timeout is already scheduled is a no-op, and any number of
consecutive `scheduleReconnect` calls arm the one-shot timeout at most
once beyond the starting count. -/
theorem scheduleReconnect_idempotent (t : ReconnectTimer)
    (h : t.scheduled = true) :
    scheduleReconnect t = t
    ∧ ∀ t' : ReconnectTimer, ∀ n : Nat,
        (scheduleReconnect^[n] t').armCount ≤ t'.armCount + 1 := by
  constructor
  · simp [scheduleReconnect, h]
  · have hfix : ∀ s : ReconnectTimer, s.scheduled = true →
        scheduleReconnect s = s := by
      intro s hs
      simp [scheduleReconnect, hs]
    have hiter : ∀ n : Nat, ∀ s : ReconnectTimer, s.scheduled = true →
        scheduleReconnect^[n] s = s := by
      intro n
      induction n with
      | zero => intro s _; rfl
      | succ k ih =>
          intro s hs
          rw [Function.iterate_succ_apply, hfix s hs]
          exact ih s hs
    intro t' n
    cases n with
    | zero => simp
    | succ k =>
        rw [Function.iterate_succ_apply]
        by_cases hs : t'.scheduled = true
        · rw [hfix t' hs, hiter k t' hs]
          omega
        · have hb : t'.scheduled = false := by
            revert hs; cases t'.scheduled <;> simp
          have : scheduleReconnect t' =
              { scheduled := true, armCount := t'.armCount + 1 } := by
            simp [scheduleReconnect, hb]
          rw [this, hiter k _ rfl]

/-- C6 witness: on an already-scheduled timer a repeat request changes
nothing, and three consecutive arm requests from a fresh timer arm it just
once. -/
theorem scheduleReconnect_idempotent_witness :
    scheduleReconnect armedTimer = armedTimer
    ∧ ∀ t' : ReconnectTimer, ∀ n : Nat,
        (scheduleReconnect^[n] t').armCount ≤ t'.armCount + 1 :=
  scheduleReconnect_idempotent armedTimer (by decide)

/-- C7: for the datagram (UDP) protocol, a connect attempt that passes the
idempotence guard issues no transport connection, reports an error, leaves
`connecting` false, keeps the socket (and queue) untouched, and arms the
reconnect timer — entering the same fixed-interval retry loop as any other
connect failure. -/
theorem connect_udp_fails_and_schedules (st : ConnectionState)
    (t : ReconnectTimer)
    (hc : st.connecting = false) (hg : socketGood st = false) :
    (connect Protocol.udp st t).errorReported = true
    ∧ (connect Protocol.udp st t).socketConnectIssued = false
    ∧ (connect Protocol.udp st t).state.connecting = false
    ∧ (connect Protocol.udp st t).state.socket = st.socket
    ∧ (connect Protocol.udp st t).state.pendingMessages = st.pendingMessages
    ∧ (connect Protocol.udp st t).timer.scheduled = true := by
  have hguard : ¬ (st.connecting = true ∨ socketGood st = true) := by
    simp [hc, hg]
  have htick : ∀ t' : ReconnectTimer, (scheduleReconnect t').scheduled = true := by
    intro t'
    unfold scheduleReconnect
    split
    · assumption
    · rfl
  refine ⟨?_, ?_, ?_, ?_, ?_, ?_⟩ <;>
    simp [connect, if_neg hguard, htick]

/-- C7 witness: a UDP connect on a fresh state reports the failure and
arms the timer without creating a socket. -/
theorem connect_udp_fails_and_schedules_witness :
    (connect Protocol.udp emptyState freshTimer).errorReported = true
    ∧ (connect Protocol.udp emptyState freshTimer).socketConnectIssued = false
    ∧ (connect Protocol.udp emptyState freshTimer).state.connecting = false
    ∧ (connect Protocol.udp emptyState freshTimer).state.socket
        = emptyState.socket
    ∧ (connect Protocol.udp emptyState freshTimer).state.pendingMessages
        = emptyState.pendingMessages
    ∧ (connect Protocol.udp emptyState freshTimer).timer.scheduled = true :=
  connect_udp_fails_and_schedules emptyState freshTimer rfl rfl

/-- C8: `onWriteError` never removes the failed message: the pending queue
and `pendingBytes` are unchanged in both branches, so the failed buffer is
still at the head, and any later `sendPendingMessages` on a state with
that queue and a usable socket writes exactly that head buffer again. -/
theorem onWriteError_keeps_failed_message (st : ConnectionState)
    (t : ReconnectTimer) :
    (onWriteError st t).1.pendingMessages = st.pendingMessages
    ∧ (onWriteError st t).1.pendingBytes = st.pendingBytes
    ∧ ∀ st' : ConnectionState,
        st'.pendingMessages = st.pendingMessages →
        socketGood st' = true →
        st.pendingMessages ≠ [] →
        sendPendingMessages st' = st.pendingMessages.head? := by
  refine ⟨?_, ?_, ?_⟩
  · unfold onWriteError
    split <;> rfl
  · unfold onWriteError
    split <;> rfl
  · intro st' hsame hgood hne
    have hne' : st'.pendingMessages.isEmpty = false := by
      rw [hsame]
      simpa using hne
    have hcond : ¬ (st'.pendingMessages.isEmpty ∨ socketGood st' = false) := by
      simp [hne', hgood]
    unfold sendPendingMessages
    rw [if_neg hcond, hsame]

/-- C8 witness: after a write error on the connected two-message state the
queue is intact and a send attempt on a usable connection re-writes the
original head buffer. -/
theorem onWriteError_keeps_failed_message_witness :
    (onWriteError demoState freshTimer).1.pendingMessages
        = demoState.pendingMessages
    ∧ (onWriteError demoState freshTimer).1.pendingBytes
        = demoState.pendingBytes
    ∧ ∀ st' : ConnectionState,
        st'.pendingMessages = demoState.pendingMessages →
        socketGood st' = true →
        demoState.pendingMessages ≠ [] →
        sendPendingMessages st' = demoState.pendingMessages.head? :=
  onWriteError_keeps_failed_message demoState freshTimer

/-- C4 (code divergence): the `closed` flag is never consulted.  On a
cleaned-up state (`closed = true`, no socket, not connecting),
`writeMessage` still enqueues a fitting buffer — mutating the state — and
`connect` still issues a fresh transport connection attempt, contradicting
the requirement that every operation observing `closed == true` is a
no-op. -/
theorem closed_flag_not_checked :
    closedState.closed = true
    ∧ (writeMessage 10 closedState [0, 1] 0).1.pendingMessages = [[0, 1]]
    ∧ (writeMessage 10 closedState [0, 1] 0).1 ≠ closedState
    ∧ (connect Protocol.tcp closedState freshTimer).socketConnectIssued = true
    ∧ (connect Protocol.tcp closedState freshTimer).state.connecting = true := by
  decide

/-- `writeMessage` in the over-capacity, drop case. -/
theorem writeMessage_drop_eq (max : Nat) (st : ConnectionState) (buf : Msg)
    (flags : Nat)
    (h : st.pendingBytes + buf.length > max ∧
        Nat.land flags NEVER_DISCARD = 0) :
    writeMessage max st buf flags = (st, false, false) := by
  unfold writeMessage
  rw [if_pos h]

/-- `writeMessage` in the enqueue case. -/
theorem writeMessage_enq_eq (max : Nat) (st : ConnectionState) (buf : Msg)
    (flags : Nat)
    (h : ¬ (st.pendingBytes + buf.length > max ∧
        Nat.land flags NEVER_DISCARD = 0)) :
    writeMessage max st buf flags =
      ({ st with pendingMessages := st.pendingMessages ++ [buf],
                 pendingBytes := st.pendingBytes + buf.length },
       true, socketGood st) := by
  unfold writeMessage
  rw [if_neg h]
  rfl

/-- `sendPendingMessages` writes something only if the socket is good and
the written buffer is the head of a non-empty queue. -/
theorem sendPendingMessages_eq_some (st : ConnectionState) (m : Msg)
    (h : sendPendingMessages st = some m) :
    socketGood st = true ∧ ∃ t, st.pendingMessages = m :: t := by
  unfold sendPendingMessages at h
  split at h
  · exact absurd h (by simp)
  · rename_i hcond
    push_neg at hcond
    obtain ⟨hne, hg⟩ := hcond
    constructor
    · revert hg
      cases socketGood st <;> simp
    · rcases hq : st.pendingMessages with _ | ⟨a, t⟩
      · rw [hq] at hne
        simp at hne
      · rw [hq] at h
        simp at h
        subst h
        exact ⟨t, rfl⟩

/-- `onWriteSuccess` decomposes as: pop the head, then run a plain
`sendPendingMessages` on the popped state (the guard in `onWriteSuccess`
duplicates the early-return guard of `sendPendingMessages`). -/
theorem onWriteSuccess_eq (st : ConnectionState) :
    onWriteSuccess st = (popHead st, sendPendingMessages (popHead st)) := by
  obtain ⟨sock, queue, bytes, conn, cl⟩ := st
  rcases queue with _ | ⟨m, rest⟩
  · rfl
  · rcases rest with _ | ⟨m2, rest2⟩
    · rfl
    · rcases sock with _ | g
      · rfl
      · cases g <;> rfl

/-- Popping a cons queue leaves the tail and does not touch the socket. -/
theorem popHead_cons (st : ConnectionState) (m : Msg) (rest : List Msg)
    (hq : st.pendingMessages = m :: rest) :
    (popHead st).pendingMessages = rest
    ∧ socketGood (popHead st) = socketGood st := by
  unfold popHead
  rw [hq]
  exact ⟨rfl, rfl⟩

/-- Each disciplined run step preserves `runInv`. -/
theorem stepEvent_preserves_inv (max : Nat) (rs : RunState) (e : Event)
    (hinv : runInv rs)
    (hd : (match e with
           | Event.write _ _ => true
           | Event.send => rs.outstanding == 0
           | Event.success => rs.outstanding == 1) = true) :
    runInv (stepEvent max rs e) := by
  obtain ⟨h1, h2, h3⟩ := hinv
  cases e with
  | write buf flags =>
      simp only [stepEvent]
      by_cases hc : rs.conn.pendingBytes + buf.length > max ∧
          Nat.land flags NEVER_DISCARD = 0
      · rw [writeMessage_drop_eq max rs.conn buf flags hc]
        exact ⟨h1, h2, h3⟩
      · rw [writeMessage_enq_eq max rs.conn buf flags hc]
        refine ⟨h1, ?_, ?_⟩
        · show rs.outstanding ≤ (rs.conn.pendingMessages ++ [buf]).length
          simp only [List.length_append, List.length_cons, List.length_nil]
          omega
        · show rs.sent ++ (rs.conn.pendingMessages ++ [buf]).drop rs.outstanding
              = rs.accepted ++ [buf]
          rw [List.drop_append_of_le_length h2, ← List.append_assoc, h3]
  | send =>
      have hout : rs.outstanding = 0 := by simpa using hd
      simp only [stepEvent]
      rcases hs : sendPendingMessages rs.conn with _ | m
      · exact ⟨h1, h2, h3⟩
      · obtain ⟨hg, t, hq⟩ := sendPendingMessages_eq_some rs.conn m hs
        show runInv { rs with sent := rs.sent ++ [m],
                              outstanding := rs.outstanding + 1 }
        refine ⟨?_, ?_, ?_⟩
        · show rs.outstanding + 1 ≤ 1
          omega
        · show rs.outstanding + 1 ≤ rs.conn.pendingMessages.length
          rw [hq]
          simp only [List.length_cons]
          omega
        · show rs.sent ++ [m]
              ++ rs.conn.pendingMessages.drop (rs.outstanding + 1)
              = rs.accepted
          rw [hout] at h3 ⊢
          rw [hq] at h3 ⊢
          simpa [List.append_assoc] using h3
  | success =>
      have hout : rs.outstanding = 1 := by simpa using hd
      rcases hq : rs.conn.pendingMessages with _ | ⟨m, rest⟩
      · rw [hq, hout] at h2
        simp at h2
      · obtain ⟨hpq, hpg⟩ := popHead_cons rs.conn m rest hq
        rw [hout] at h3
        rw [hq] at h3
        simp only [List.drop_succ_cons, List.drop_zero] at h3
        simp only [stepEvent, onWriteSuccess_eq]
        rcases hsv : sendPendingMessages (popHead rs.conn) with _ | m2
        · show runInv { rs with conn := popHead rs.conn,
                                sent := rs.sent ++ [],
                                outstanding := rs.outstanding - 1 + 0 }
          refine ⟨?_, ?_, ?_⟩
          · show rs.outstanding - 1 + 0 ≤ 1
            omega
          · show rs.outstanding - 1 + 0 ≤ (popHead rs.conn).pendingMessages.length
            omega
          · show rs.sent ++ []
                ++ (popHead rs.conn).pendingMessages.drop (rs.outstanding - 1 + 0)
                = rs.accepted
            rw [hout, hpq]
            simpa using h3
        · obtain ⟨_, t2, hq2⟩ :=
            sendPendingMessages_eq_some (popHead rs.conn) m2 hsv
          show runInv { rs with conn := popHead rs.conn,
                                sent := rs.sent ++ [m2],
                                outstanding := rs.outstanding - 1 + 1 }
          refine ⟨?_, ?_, ?_⟩
          · show rs.outstanding - 1 + 1 ≤ 1
            omega
          · show rs.outstanding - 1 + 1
                ≤ (popHead rs.conn).pendingMessages.length
            rw [hq2]
            simp only [List.length_cons]
            omega
          · show rs.sent ++ [m2]
                ++ (popHead rs.conn).pendingMessages.drop (rs.outstanding - 1 + 1)
                = rs.accepted
            rw [hout]
            rw [hq2]
            have hrest : rest = m2 :: t2 := by rw [← hpq, hq2]
            rw [hrest] at h3
            simpa [List.append_assoc] using h3

/-- `runInv` holds at the end of every disciplined run. -/
theorem runEvents_preserves_inv (max : Nat) (evts : List Event)
    (rs : RunState) (hinv : runInv rs)
    (hd : disciplined max rs evts = true) :
    runInv (runEvents max rs evts) := by
  induction evts generalizing rs with
  | nil => exact hinv
  | cons e rest ih =>
      simp only [disciplined, Bool.and_eq_true] at hd
      exact ih (stepEvent max rs e)
        (stepEvent_preserves_inv max rs e hinv hd.1) hd.2

/-- Supporting analysis for the intended design: `sendPendingMessages`
only ever writes the head of the pending queue, and in a run that does
follow the single-in-flight discipline (each posted send executes with no
write outstanding; each success callback answers the one outstanding
write) the transcript handed to the transport is a duplicate-free prefix
of the successfully enqueued buffers in enqueue order.  The code does not
enforce that discipline — see the duplication run below. -/
theorem fifo_transmission (max : Nat) (evts : List Event)
    (hd : disciplined max initRun evts = true) :
    (∀ st : ConnectionState, ∀ m : Msg,
        sendPendingMessages st = some m → st.pendingMessages.head? = some m)
    ∧ (∃ rest, (runEvents max initRun evts).sent ++ rest
          = (runEvents max initRun evts).accepted)
    ∧ ((runEvents max initRun evts).conn.pendingMessages = [] →
        (runEvents max initRun evts).sent
          = (runEvents max initRun evts).accepted) := by
  have hinv : runInv (runEvents max initRun evts) :=
    runEvents_preserves_inv max evts initRun
      ⟨Nat.zero_le _, Nat.zero_le _, rfl⟩ hd
  obtain ⟨_, _, h3⟩ := hinv
  refine ⟨?_, ⟨_, h3⟩, ?_⟩
  · intro st m hs
    obtain ⟨_, t, hq⟩ := sendPendingMessages_eq_some st m hs
    rw [hq]
    rfl
  · intro hempty
    rw [hempty] at h3
    simpa using h3

/-- Concrete disciplined run for the supporting analysis: it transmits
exactly `[[1], [2]]`, the two enqueued buffers in order. -/
theorem fifo_transmission_witness :
    (∀ st : ConnectionState, ∀ m : Msg,
        sendPendingMessages st = some m → st.pendingMessages.head? = some m)
    ∧ (∃ rest, (runEvents 10 initRun demoEvts).sent ++ rest
          = (runEvents 10 initRun demoEvts).accepted)
    ∧ ((runEvents 10 initRun demoEvts).conn.pendingMessages = [] →
        (runEvents 10 initRun demoEvts).sent
          = (runEvents 10 initRun demoEvts).accepted) :=
  fifo_transmission 10 demoEvts (by decide)

/-- C1 (code divergence): `sendPendingMessages` has no in-flight guard —
it unconditionally writes `pendingMessages.front()` — and `writeMessage`
posts a send whenever the socket is good, so a posted send can run while
a previous write is still outstanding and writes the same head again.  On
the code-reachable schedule `raceEvts` (writeMessage `[1]`; its posted
send runs; writeMessage `[2]`; its posted send runs before the first
write's success callback; then the two success callbacks) the transport
receives `[1]` twice: the transcript `[[1], [1], [2]]` is not the
enqueued sequence `[[1], [2]]`, contradicting the claimed exactly-once
FIFO delivery in which the next buffer is written only after
`onWriteSuccess` removes the head. -/
theorem fifo_duplication_bug :
    (runEvents 10 initRun raceEvts).accepted = [[1], [2]]
    ∧ (runEvents 10 initRun raceEvts).sent = [[1], [1], [2]]
    ∧ (runEvents 10 initRun raceEvts).sent
        ≠ (runEvents 10 initRun raceEvts).accepted
    ∧ (runEvents 10 initRun raceEvts).sent.count [1] = 2 := by
  decide

/-- Splitting a list at the end of its maximal digit run. -/
theorem takeWhile_append_drop_self (p : Char → Bool) (l : List Char) :
    l.takeWhile p ++ l.drop (l.takeWhile p).length = l := by
  induction l with
  | nil => rfl
  | cons a t ih =>
      by_cases hp : p a
      · simp [List.takeWhile_cons, hp, ih]
      · simp [List.takeWhile_cons, hp]

/-- The maximal digit run of `digits ++ unit` is exactly `digits` when the
unit starts with a non-digit. -/
theorem takeWhile_digits_append (d u : List Char)
    (hd : ∀ c ∈ d, c.isDigit = true)
    (hu : ∀ c, u.head? = some c → c.isDigit = false) :
    (d ++ u).takeWhile Char.isDigit = d := by
  induction d with
  | nil =>
      rcases u with _ | ⟨c, t⟩
      · rfl
      · have hc := hu c rfl
        simp [List.takeWhile_cons, hc]
  | cons a d ih =>
      have ha := hd a (by simp)
      simp only [List.cons_append, List.takeWhile_cons, ha, if_true]
      rw [ih (fun c hc => hd c (by simp [hc]))]

/-- A recognized interval unit is non-empty and starts with a
non-digit. -/
theorem intervalUnit_shape (u : List Char) (m : Int)
    (h : intervalUnitMult u = some m) :
    u ≠ [] ∧ ∀ c, u.head? = some c → c.isDigit = false := by
  unfold intervalUnitMult at h
  split_ifs at h with h1 h2 h3 h4 <;>
    subst_vars <;>
    exact ⟨by simp, by intro c hc; simp at hc; subst hc; decide⟩

/-- A recognized size unit is non-empty and starts with a non-digit. -/
theorem sizeUnit_shape (u : List Char) (m : Nat)
    (h : sizeUnitMult u = some m) :
    u ≠ [] ∧ ∀ c, u.head? = some c → c.isDigit = false := by
  unfold sizeUnitMult at h
  split_ifs at h with h1 h2 h3 h4 <;>
    subst_vars <;>
    exact ⟨by simp, by intro c hc; simp at hc; subst hc; decide⟩

/-- C9 counterexample: `"0s"` and `"0B"` are digits followed by a
recognized unit, so neither parser rejects them, yet both return 0 — not a
positive interval or byte count. -/
theorem parse_zero_not_rejected :
    parseReconnectInterval ['0', 's'] = Except.ok 0
    ∧ parseMaxBufferSize ['0', 'B'] = Except.ok 0
    ∧ ¬ 0 < 0 := by
  refine ⟨rfl, rfl, by omega⟩

/-- Supporting evaluation: an accepted 20-digit "ms" string (10^19, which
`to<uint64_t>` converts without throwing) wraps into the signed 64-bit
milliseconds rep and comes out negative. -/
theorem parse_interval_wraps_negative :
    parseReconnectInterval
        ['1', '0', '0', '0', '0', '0', '0', '0', '0', '0', '0', '0', '0',
         '0', '0', '0', '0', '0', '0', '0', 'm', 's']
      = Except.ok (-8446744073709551616)
    ∧ (-8446744073709551616 : Int) < 0 := by
  refine ⟨rfl, by decide⟩

/-- Adding a multiple of `2^64` does not change the wrapped value. -/
theorem wrap64_add_mul (x c : Int) : wrap64 (x + 2 ^ 64 * c) = wrap64 x := by
  unfold wrap64
  rw [add_right_comm, Int.add_mul_emod_self_left]

/-- Wrapping the left factor before an int64 multiplication gives the
same wrapped product as multiplying exactly. -/
theorem wrap64_mul_wrap64 (a k : Int) :
    wrap64 (wrap64 a * k) = wrap64 (a * k) := by
  have h : wrap64 a * k
      = a * k + 2 ^ 64 * (-((a + 2 ^ 63) / 2 ^ 64) * k) := by
    unfold wrap64
    rw [Int.emod_def]
    ring
  rw [h]
  exact wrap64_add_mul (a * k) (-((a + 2 ^ 63) / 2 ^ 64) * k)

/-- Facts about the digit-run split used by both parsers: the string is
the run plus the remainder, the run is non-empty, and it is all digits. -/
theorem digitRun_split (s : List Char)
    (h0 : (s.takeWhile Char.isDigit).length ≠ 0) :
    s = s.takeWhile Char.isDigit ++ s.drop (s.takeWhile Char.isDigit).length
    ∧ s.takeWhile Char.isDigit ≠ []
    ∧ ∀ c ∈ s.takeWhile Char.isDigit, c.isDigit = true := by
  refine ⟨(takeWhile_append_drop_self Char.isDigit s).symm, ?_, ?_⟩
  · intro hnil
    rw [hnil] at h0
    exact h0 rfl
  · intro c hc
    exact List.mem_takeWhile_imp hc

/-- Conversely, an all-digit run followed by a non-digit-led remainder is
recovered exactly by the parsers' scan, and passes the emptiness
checks. -/
theorem digitRun_recover (d u : List Char)
    (hdne : d ≠ []) (hune : u ≠ [])
    (hdig : ∀ c ∈ d, c.isDigit = true)
    (huhead : ∀ c, u.head? = some c → c.isDigit = false) :
    (d ++ u).takeWhile Char.isDigit = d
    ∧ (d ++ u).drop d.length = u
    ∧ ¬(d.length = 0 ∨ d.length = (d ++ u).length) := by
  refine ⟨takeWhile_digits_append d u hdig huhead, List.drop_left d u, ?_⟩
  rw [List.length_append]
  rintro (hz | hlen)
  · exact hdne (List.length_eq_zero.mp hz)
  · have hu0 : u.length = 0 := by omega
    exact hune (List.length_eq_zero.mp hu0)

/-- C9 amended: each parser accepts exactly the strings made of a
non-empty digit run followed by a recognized unit whose digit value fits
`uint64_t`, returning the digit value times the unit factor — wrapped,
for intervals, into the signed 64-bit milliseconds rep (so huge but
accepted digit strings yield negative intervals) and, for sizes, reduced
modulo `2^64`; every other string raises a synchronous error.  The
returned value may be zero — positivity is not validated. -/
theorem parse_config_characterization (s : List Char) (vi : Int)
    (vs : Nat) :
    (parseReconnectInterval s = Except.ok vi ↔
      ∃ d u m, s = d ++ u ∧ d ≠ [] ∧ (∀ c ∈ d, c.isDigit = true)
        ∧ intervalUnitMult u = some m ∧ digitsToNat d < 2 ^ 64
        ∧ vi = wrap64 ((digitsToNat d : Int) * m))
    ∧ (parseMaxBufferSize s = Except.ok vs ↔
      ∃ d u m, s = d ++ u ∧ d ≠ [] ∧ (∀ c ∈ d, c.isDigit = true)
        ∧ sizeUnitMult u = some m ∧ digitsToNat d < 2 ^ 64
        ∧ vs = digitsToNat d * m % 2 ^ 64) := by
  constructor
  · constructor
    · intro h
      simp only [parseReconnectInterval] at h
      split_ifs at h with hg hr h1 h2 h3 h4
      · obtain ⟨hsplit, hdne, hdig⟩ :=
          digitRun_split s (fun hz => hg (Or.inl hz))
        simp only [Except.ok.injEq] at h
        exact ⟨_, _, 1, hsplit, hdne, hdig, by simp [intervalUnitMult, h1],
          hr, by rw [mul_one]; exact h.symm⟩
      · obtain ⟨hsplit, hdne, hdig⟩ :=
          digitRun_split s (fun hz => hg (Or.inl hz))
        simp only [Except.ok.injEq] at h
        exact ⟨_, _, 1000, hsplit, hdne, hdig,
          by simp [intervalUnitMult, h1, h2], hr,
          by rw [← wrap64_mul_wrap64]; exact h.symm⟩
      · obtain ⟨hsplit, hdne, hdig⟩ :=
          digitRun_split s (fun hz => hg (Or.inl hz))
        simp only [Except.ok.injEq] at h
        exact ⟨_, _, 60000, hsplit, hdne, hdig,
          by simp [intervalUnitMult, h1, h2, h3], hr,
          by rw [← wrap64_mul_wrap64]; exact h.symm⟩
      · obtain ⟨hsplit, hdne, hdig⟩ :=
          digitRun_split s (fun hz => hg (Or.inl hz))
        simp only [Except.ok.injEq] at h
        exact ⟨_, _, 3600000, hsplit, hdne, hdig,
          by simp [intervalUnitMult, h1, h2, h3, h4], hr,
          by rw [← wrap64_mul_wrap64]; exact h.symm⟩
    · rintro ⟨d, u, m, rfl, hdne, hdig, hum, hrange, rfl⟩
      obtain ⟨hune, huhead⟩ := intervalUnit_shape u m hum
      obtain ⟨htw, hdrop, hguard⟩ :=
        digitRun_recover d u hdne hune hdig huhead
      simp only [parseReconnectInterval, htw, hdrop]
      rw [if_neg hguard, if_pos hrange]
      unfold intervalUnitMult at hum
      split_ifs at hum with h1 h2 h3 h4
      · rw [if_pos h1]
        simp only [Option.some.injEq] at hum
        subst hum
        rw [mul_one]
      · rw [if_neg h1, if_pos h2]
        simp only [Option.some.injEq] at hum
        subst hum
        rw [wrap64_mul_wrap64]
      · rw [if_neg h1, if_neg h2, if_pos h3]
        simp only [Option.some.injEq] at hum
        subst hum
        rw [wrap64_mul_wrap64]
      · rw [if_neg h1, if_neg h2, if_neg h3, if_pos h4]
        simp only [Option.some.injEq] at hum
        subst hum
        rw [wrap64_mul_wrap64]
  · constructor
    · intro h
      simp only [parseMaxBufferSize] at h
      split_ifs at h with hg hr h1 h2 h3 h4
      · obtain ⟨hsplit, hdne, hdig⟩ :=
          digitRun_split s (fun hz => hg (Or.inl hz))
        simp only [Except.ok.injEq] at h
        exact ⟨_, _, 1, hsplit, hdne, hdig, by simp [sizeUnitMult, h1],
          hr, h.symm⟩
      · obtain ⟨hsplit, hdne, hdig⟩ :=
          digitRun_split s (fun hz => hg (Or.inl hz))
        simp only [Except.ok.injEq] at h
        exact ⟨_, _, 1024, hsplit, hdne, hdig,
          by simp [sizeUnitMult, h1, h2], hr, h.symm⟩
      · obtain ⟨hsplit, hdne, hdig⟩ :=
          digitRun_split s (fun hz => hg (Or.inl hz))
        simp only [Except.ok.injEq] at h
        exact ⟨_, _, 1024 * 1024, hsplit, hdne, hdig,
          by simp [sizeUnitMult, h1, h2, h3], hr, h.symm⟩
      · obtain ⟨hsplit, hdne, hdig⟩ :=
          digitRun_split s (fun hz => hg (Or.inl hz))
        simp only [Except.ok.injEq] at h
        exact ⟨_, _, 1024 * 1024 * 1024, hsplit, hdne, hdig,
          by simp [sizeUnitMult, h1, h2, h3, h4], hr, h.symm⟩
    · rintro ⟨d, u, m, rfl, hdne, hdig, hum, hrange, rfl⟩
      obtain ⟨hune, huhead⟩ := sizeUnit_shape u m hum
      obtain ⟨htw, hdrop, hguard⟩ :=
        digitRun_recover d u hdne hune hdig huhead
      simp only [parseMaxBufferSize, htw, hdrop]
      rw [if_neg hguard, if_pos hrange]
      unfold sizeUnitMult at hum
      split_ifs at hum with h1 h2 h3 h4
      · rw [if_pos h1]
        simp only [Option.some.injEq] at hum
        subst hum
        rfl
      · rw [if_neg h1, if_pos h2]
        simp only [Option.some.injEq] at hum
        subst hum
        rfl
      · rw [if_neg h1, if_neg h2, if_pos h3]
        simp only [Option.some.injEq] at hum
        subst hum
        rfl
      · rw [if_neg h1, if_neg h2, if_neg h3, if_pos h4]
        simp only [Option.some.injEq] at hum
        subst hum
        rfl

/-- C9 amended witness: "5s" parses to 5000 ms and "2KB" to 2048 bytes. -/
theorem parse_config_characterization_witness :
    parseReconnectInterval ['5', 's'] = Except.ok 5000
    ∧ parseMaxBufferSize ['2', 'K', 'B'] = Except.ok 2048 :=
  ⟨((parse_config_characterization ['5', 's'] 5000 0).1).mpr
      ⟨['5'], ['s'], 1000, rfl, by decide, by decide, by decide,
        by decide, by decide⟩,
   ((parse_config_characterization ['2', 'K', 'B'] 0 2048).2).mpr
      ⟨['2'], ['K', 'B'], 1024, rfl, by decide, by decide, by decide,
        by decide, by decide⟩⟩

/-- For a nibble, the printed lowercase hex digit byte is a digit or a
lowercase letter a-f. -/
theorem hexDigit_bounds (n : Nat) (h : n < 16) :
    48 ≤ hexDigit n ∧ hexDigit n ≤ 102 := by
  unfold hexDigit
  split <;> omega

/-- The printed hex digit byte passes the hex-digit check. -/
theorem isHexLower_hexDigit (n : Nat) (h : n < 16) :
    isHexLower (hexDigit n) = true := by
  unfold hexDigit isHexLower
  split <;> (simp only [decide_eq_true_eq]; omega)

/-- Prepending one escaped byte preserves the escaped-output checker. -/
theorem jsonEscapedOk_escapeByte (b : Nat) (rest : List Nat) :
    jsonEscapedState 0 (escapeByte b ++ rest) = jsonEscapedState 0 rest := by
  unfold escapeByte
  split_ifs with h1 h2 h3 h4 h5 h6 h7 h8
  · simp [jsonEscapedState, escapeLetter]
  · simp [jsonEscapedState, escapeLetter]
  · simp [jsonEscapedState, escapeLetter]
  · simp [jsonEscapedState, escapeLetter]
  · simp [jsonEscapedState, escapeLetter]
  · simp [jsonEscapedState, escapeLetter]
  · simp [jsonEscapedState, escapeLetter]
  · have hd1 : isHexLower (hexDigit (b / 16)) = true :=
      isHexLower_hexDigit _ (by omega)
    have hd2 : isHexLower (hexDigit (b % 16)) = true :=
      isHexLower_hexDigit _ (by omega)
    simp [jsonEscapedState, escapeLetter, hd1, hd2,
      (by decide : isHexLower 48 = true)]
  · have hsp : isSpecialByte b = false := by
      unfold isSpecialByte
      simp only [decide_eq_false_iff_not]
      omega
    simp [jsonEscapedState, h2, hsp]

/-- The full escaped output passes the escaped-output checker. -/
theorem escapeJsonString_ok (s : List Nat) :
    jsonEscapedOk (escapeJsonString s) = true := by
  unfold jsonEscapedOk
  induction s with
  | nil => rfl
  | cons b rest ih =>
      show jsonEscapedState 0 (escapeByte b ++ escapeJsonString rest) = true
      rw [jsonEscapedOk_escapeByte, ih]

/-- Every byte emitted for a single input byte is printable: at least
0x20 and not 0x7F. -/
theorem escapeByte_no_control (b c : Nat) (hc : c ∈ escapeByte b) :
    32 ≤ c ∧ c ≠ 127 := by
  unfold escapeByte at hc
  split_ifs at hc with h1 h2 h3 h4 h5 h6 h7 h8 <;> simp at hc
  all_goals try omega
  have hb1 := hexDigit_bounds (b / 16) (by omega)
  have hb2 := hexDigit_bounds (b % 16) (by omega)
  omega

/-- No byte of the escaped output is a control byte or 0x7F. -/
theorem escapeJsonString_no_control (s : List Nat) :
    ∀ c ∈ escapeJsonString s, 32 ≤ c ∧ c ≠ 127 := by
  induction s with
  | nil =>
      intro c hc
      simp [escapeJsonString] at hc
  | cons b rest ih =>
      intro c hc
      simp only [escapeJsonString] at hc
      rcases List.mem_append.mp hc with h | h
      · exact escapeByte_no_control b c h
      · exact ih c h

/-- The decimal digits of a number are the bytes 0x30-0x39. -/
theorem natDigits_digits (n : Nat) : ∀ b ∈ natDigits n, 48 ≤ b ∧ b ≤ 57 := by
  induction n using Nat.strong_induction_on with
  | _ n ih =>
      intro b hb
      unfold natDigits at hb
      split at hb
      · simp at hb
        omega
      · rcases List.mem_append.mp hb with hb | hb
        · exact ih (n / 10) (Nat.div_lt_self (by omega) (by omega)) b hb
        · simp at hb
          omega

/-- A list of decimal digit bytes contains no newline. -/
theorem count10_of_digits (l : List Nat) (h : ∀ b ∈ l, 48 ≤ b ∧ b ≤ 57) :
    l.count 10 = 0 :=
  List.count_eq_zero.mpr (fun hmem => by
    have := h 10 hmem
    omega)

theorem count10_natDigits (n : Nat) : (natDigits n).count 10 = 0 :=
  count10_of_digits _ (natDigits_digits n)

theorem count10_pad2 (n : Nat) : (pad2 n).count 10 = 0 := by
  unfold pad2
  split
  · rename_i hn
    apply count10_of_digits
    intro b hb
    simp at hb
    omega
  · exact count10_natDigits n

theorem count10_pad6 (n : Nat) : (pad6 n).count 10 = 0 := by
  unfold pad6
  rw [List.count_append, count10_natDigits]
  have hrep : (List.replicate (6 - (natDigits n).length) 48).count 10 = 0 :=
    List.count_eq_zero.mpr (fun hmem => by
      have := List.eq_of_mem_replicate hmem
      omega)
  omega

/-- The formatted timestamp contains no newline. -/
theorem count10_formatTimestamp (t : TmTime) :
    (formatTimestamp t).count 10 = 0 := by
  unfold formatTimestamp
  simp [List.count_append, count10_natDigits, count10_pad2, count10_pad6]

/-- No level name contains a newline. -/
theorem count10_levelName (level : Nat) : (levelName level).count 10 = 0 := by
  unfold levelName
  split_ifs <;> decide

/-- The escaped string fields contain no newline. -/
theorem count10_escape (s : List Nat) : (escapeJsonString s).count 10 = 0 :=
  List.count_eq_zero.mpr (fun hmem => by
    have := escapeJsonString_no_control s 10 hmem
    omega)

/-- Appending onto a newline-terminated list keeps it
newline-terminated. -/
theorem getLast_append_newline (l1 l2 : List Nat)
    (h : l2.getLast? = some 10) : (l1 ++ l2).getLast? = some 10 := by
  rcases l2 with _ | ⟨a, t⟩
  · simp at h
  · rw [List.getLast?_append_cons]
    exact h

/-- C10: escaping is sound — the escaped output parses as non-special
bytes and complete escape sequences (so it holds no unescaped quote,
backslash, or control byte), every special byte is replaced by its escape
sequence while every non-special byte is copied through unchanged, no
control byte (below 0x20, or 0x7F) survives raw, and consequently the
non-pretty `formatMessage` output is a single newline-terminated line:
its only newline byte is the final one. -/
theorem escapeJsonString_sound :
    (∀ s : List Nat, jsonEscapedOk (escapeJsonString s) = true)
    ∧ (∀ b : Nat, isSpecialByte b = false → escapeByte b = [b])
    ∧ (∀ s : List Nat, ∀ c ∈ escapeJsonString s, 32 ≤ c ∧ c ≠ 127)
    ∧ (∀ t : TmTime, ∀ level : Nat, ∀ category file func message : List Nat,
        ∀ line threadId : Nat,
        (formatMessage false t level category file func message
            line threadId).count 10 = 1
        ∧ (formatMessage false t level category file func message
            line threadId).getLast? = some 10) := by
  refine ⟨escapeJsonString_ok, ?_, escapeJsonString_no_control, ?_⟩
  · intro b hb
    unfold isSpecialByte at hb
    simp only [decide_eq_false_iff_not] at hb
    unfold escapeByte
    split_ifs with h1 h2 h3 h4 h5 h6 h7 h8 <;>
      first
        | rfl
        | (exfalso; omega)
  · intro t level category file func message line threadId
    constructor
    · simp [formatMessage, List.count_append, count10_formatTimestamp,
        count10_levelName, count10_escape, count10_natDigits]
      decide
    · simp only [formatMessage, Bool.false_eq_true, if_false]
      repeat apply getLast_append_newline
      rfl

/-- C10 witness: a mixed input escapes to checked output, the letter A
passes through, a quote escape keeps its printable bytes, and a concrete
compact log line has exactly one newline, at its end. -/
theorem escapeJsonString_sound_witness :
    jsonEscapedOk (escapeJsonString [34, 92, 10, 127, 65]) = true
    ∧ escapeByte 65 = [65]
    ∧ (32 ≤ 92 ∧ 92 ≠ 127)
    ∧ ((formatMessage false demoTm 2000 [99] [102] [103] [104] 5 7).count 10 = 1
       ∧ (formatMessage false demoTm 2000 [99] [102] [103] [104]
            5 7).getLast? = some 10) :=
  ⟨escapeJsonString_sound.1 [34, 92, 10, 127, 65],
   escapeJsonString_sound.2.1 65 (by decide),
   escapeJsonString_sound.2.2.1 [92] 92 (by decide),
   escapeJsonString_sound.2.2.2 demoTm 2000 [99] [102] [103] [104] 5 7⟩

end FollyNetLog
